import Mathlib

/-!
Verification of the Slack thread-fetching backend (`src/backend/main.go`)
of the SlackApp_LinkWise repository.

The Go program is shallowly embedded: each Go function used by the claims
is translated into an executable Lean definition.  The Slack Web API, an
external collaborator reached through HTTP, is modelled as an oracle
argument (a function from call index, respectively user id, to the outcome
of one HTTP round trip).  Go's `(T, error)` return convention is modelled
by `Except String T`: `Except.error e` corresponds to `return nil, err`
(in particular no message list is carried by an error return).
-/

/-! ### Data model -/

/-- Embeds the Go struct `SlackMessage` (main.go lines 31-42).  The
`Blocks []interface{}` field is an untyped JSON payload that the program
never reads and is omitted. -/
structure SlackMessage where
  clientMsgId : String
  type : String
  subtype : String
  text : String
  user : String
  ts : String
  threadTs : Option String
  parentUserId : Option String
  team : String
deriving DecidableEq, Repr

/-- Embeds the anonymous `ResponseMetadata` struct nested in
`SlackMessageResponse` (main.go lines 24-26). -/
structure ResponseMetadata where
  nextCursor : String
deriving DecidableEq, Repr

/-- Embeds the Go struct `SlackMessageResponse` (main.go lines 20-28). -/
structure SlackMessageResponse where
  ok : Bool
  messages : List SlackMessage
  hasMore : Bool
  responseMetadata : ResponseMetadata
  error : String
deriving DecidableEq, Repr

/-- Embeds the Go struct `ResponseData` (main.go lines 59-63), one
resolved message returned to the frontend. -/
structure ResponseData where
  timestamp : String
  userName : String
  text : String
deriving DecidableEq, Repr

/-! ### Thread fetcher (`getThreadMessages`) -/

/-- Outcome of JSON-decoding one HTTP response body into a
`SlackMessageResponse` (`json.NewDecoder(resp.Body).Decode`, main.go
line 283): either a decode error or a decoded value. -/
inductive DecodeResult where
  | fail (e : String)
  | decoded (r : SlackMessageResponse)
deriving DecidableEq, Repr

/-- Outcome of one HTTP round trip performed by `client.Do` in
`getThreadMessages` (main.go line 272): a transport error, or a response
carrying a numeric status code, a status text (Go's `resp.Status`), and a
body whose decoding result is given by `DecodeResult`. -/
inductive RoundTrip where
  | transportErr (e : String)
  | response (statusCode : Nat) (status : String) (body : DecodeResult)
deriving DecidableEq, Repr

/-- Embeds the per-page error handling of `getThreadMessages`
(main.go lines 272-289), in source order: transport failure, then the
non-200 status check, then JSON decoding, then the `ok:false` check.
The error strings are the ones built by the corresponding
`fmt.Errorf` calls. -/
def processPage : RoundTrip → Except String SlackMessageResponse
  | .transportErr e => .error ("failed to call slack api: " ++ e)
  | .response statusCode status body =>
    if statusCode ≠ 200 then
      .error ("slack api request failed with status: " ++ status)
    else
      match body with
      | .fail e => .error ("failed to decode slack api response: " ++ e)
      | .decoded r =>
        if !r.ok then .error ("slack api returned an error: " ++ r.error)
        else .ok r

/-- Embeds the pagination loop of `getThreadMessages` (main.go lines
253-297).  `api` maps the index of an API call (0-based, in call order)
to the outcome of that round trip.  `cursor` is the Go `cursor` variable:
the empty string means the `cursor` query parameter is omitted from the
request (main.go lines 260-262).  `acc` is `allMessages`; `sent` records,
per call made, the value of the `cursor` variable at that call, so that
the requests actually issued are observable.  The loop has no bound in
the source (`for { ... }`), so the embedding takes a fuel argument and
returns `none` if the fuel is exhausted before the loop exits. -/
def threadLoop (api : Nat → RoundTrip) :
    Nat → Nat → String → List SlackMessage → List String →
    Option (Except String (List SlackMessage) × List String)
  | 0, _, _, _, _ => none
  | fuel + 1, i, cursor, acc, sent =>
    match processPage (api i) with
    | .error e => some (.error e, sent ++ [cursor])
    | .ok r =>
      let acc' := acc ++ r.messages
      let cursor' := r.responseMetadata.nextCursor
      if cursor' = "" then some (.ok acc', sent ++ [cursor])
      else threadLoop api fuel (i + 1) cursor' acc' (sent ++ [cursor])

/-- Embeds `getThreadMessages` (main.go lines 245-300): runs the
pagination loop from call index 0, an empty cursor, and no accumulated
messages.  (The `http.NewRequestWithContext` error branch at main.go
line 265 can never fire for the fixed method and URL used there and has
no counterpart in the model.) -/
def getThreadMessages (api : Nat → RoundTrip) (fuel : Nat) :
    Option (Except String (List SlackMessage) × List String) :=
  threadLoop api fuel 0 "" [] []

/-- Round trip of a fully successful page: HTTP 200 and a decoded body. -/
def goodPage (r : SlackMessageResponse) : RoundTrip :=
  .response 200 "200 OK" (.decoded r)

/-- Cursor value held by the loop after consuming the given pages,
starting from cursor `c`. -/
def cursorAfter (c : String) : List SlackMessageResponse → String
  | [] => c
  | r :: rs => cursorAfter r.responseMetadata.nextCursor rs

/-- Cursor values sent while consuming the given pages, starting from
cursor `c` (one entry per page). -/
def sentDuring (c : String) : List SlackMessageResponse → List String
  | [] => []
  | r :: rs => c :: sentDuring r.responseMetadata.nextCursor rs

/-- Sample message used by concrete witnesses. -/
def sampleMsg (user ts text : String) : SlackMessage :=
  ⟨"", "message", "", text, user, ts, none, none, ""⟩

/-- Sample successful page used by concrete witnesses. -/
def samplePage (msgs : List SlackMessage) (cursor : String) : SlackMessageResponse :=
  ⟨true, msgs, cursor ≠ "", ⟨cursor⟩, ""⟩

/-! ### User name resolver (`getUserName`) -/

/-- Embeds the anonymous response struct decoded by `getUserName`
(main.go lines 193-201): `ok`, `error`, and the profile's
`real_name`. -/
structure UserInfoResponse where
  ok : Bool
  error : String
  realName : String
deriving DecidableEq, Repr

/-- Decoding outcome of a `users.info` response body. -/
inductive UserDecodeResult where
  | fail (e : String)
  | decoded (r : UserInfoResponse)
deriving DecidableEq, Repr

/-- Outcome of the HTTP round trip performed by `client.Do` in
`getUserName` (main.go line 183). -/
inductive UserRoundTrip where
  | transportErr (e : String)
  | response (statusCode : Nat) (status : String) (body : UserDecodeResult)
deriving DecidableEq, Repr

/-- Embeds `getUserName` (main.go lines 165-211).  `api` maps a user id
to the outcome of the `users.info` round trip for that id; `cache` is the
process-global `userCache` map (main.go line 162).  The result is the
`(string, error)` return value, the state of `userCache` after the call,
and whether a network call was performed.  Note that the source reads
`userCache` (line 167) but never writes to it: on every path the cache
after the call is the cache before it.  (The `http.NewRequest` error
branch at line 175 can never fire for the fixed method and URL used there
and has no counterpart in the model.) -/
def getUserName (api : String → UserRoundTrip) (cache : String → Option String)
    (userID : String) : Except String String × (String → Option String) × Bool :=
  match cache userID with
  | some name => (.ok name, cache, false)
  | none =>
    match api userID with
    | .transportErr e => (.error ("failed to call slack api: " ++ e), cache, true)
    | .response statusCode status body =>
      if statusCode ≠ 200 then
        (.error ("slack api request failed with status: " ++ status), cache, true)
      else
        match body with
        | .fail e => (.error ("failed to decode slack api response: " ++ e), cache, true)
        | .decoded r =>
          if !r.ok then (.error ("slack api returned an error: " ++ r.error), cache, true)
          else (.ok r.realName, cache, true)

/-! ### Timestamp formatter (`formatTimestamp`) -/

/-- ASCII digit test, the class `[0-9]`. -/
def isDigitA (c : Char) : Bool := '0' ≤ c && c ≤ '9'

/-- Numeric value of an ASCII digit. -/
def digitVal (c : Char) : Nat := c.toNat - '0'.toNat

/-- Embeds `strconv.ParseInt(s, 10, 64)` from the Go standard library as
used by `formatTimestamp` (main.go line 221): an optional `+` or `-`
sign followed by one or more ASCII digits, whose signed value must fit
in a 64-bit integer; `none` stands for any non-nil error (empty digits,
a non-digit character, or range overflow). -/
def goParseInt64 (s : String) : Option Int :=
  let signed : Bool × List Char :=
    match s.data with
    | '+' :: cs => (false, cs)
    | '-' :: cs => (true, cs)
    | cs => (false, cs)
  let neg := signed.1
  let ds := signed.2
  if ds.isEmpty then none
  else if ds.all isDigitA then
    let n : Nat := ds.foldl (fun acc c => 10 * acc + digitVal c) 0
    if neg then
      if n ≤ 2 ^ 63 then some (-(n : Int)) else none
    else
      if n ≤ 2 ^ 63 - 1 then some (n : Int) else none
  else none

/-- Splits a character list at the first `.`, if any: the pieces before
and after that dot. -/
def splitAtFirstDot : List Char → Option (List Char × List Char)
  | [] => none
  | c :: cs =>
    if c = '.' then some ([], cs)
    else
      match splitAtFirstDot cs with
      | none => none
      | some (l, r) => some (c :: l, r)

/-- Embeds `regexp.MustCompile("\\.").Split(ts, 2)` (main.go line 216):
at most two fields, split at the first literal dot; a string with no dot
yields the single field `[ts]`. -/
def splitDot2 (s : String) : List String :=
  match splitAtFirstDot s.data with
  | none => [s]
  | some (l, r) => [⟨l⟩, ⟨r⟩]

/-- Embeds `formatTimestamp` (main.go lines 213-229).  The success value
is the parsed epoch second count handed to `time.Unix(seconds, 0)`; the
subsequent `t.Format("2006-01-02 15:04:05")` rendering cannot fail and
depends on the process time zone, so the embedding stops at the seconds
value (the errors are exactly the errors of the source; the text wrapped
by `fmt.Errorf("failed to parse timestamp: %w", err)` is abbreviated).
The `len(parts) < 1` guard of the source is kept even though `Split`
never returns fewer than one field. -/
def formatTimestamp (ts : String) : Except String Int :=
  let parts := splitDot2 ts
  if parts.length < 1 then .error "invalid timestamp format"
  else
    match goParseInt64 (parts.headD "") with
    | none => .error "failed to parse timestamp"
    | some seconds => .ok seconds

/-- True exactly on the error constructor of `Except`. -/
def isErr {ε α : Type} : Except ε α → Bool
  | .error _ => true
  | .ok _ => false

/-! ### Link parser (`extractSlackLinkInfo`) -/

/-- ASCII alphanumeric test, the class `[A-Za-z0-9]` (the channel-id body
of the permalink pattern). -/
def isAlnumA (c : Char) : Bool :=
  ('A' ≤ c && c ≤ 'Z') || ('a' ≤ c && c ≤ 'z') || ('0' ≤ c && c ≤ '9')

/-- Workspace-name test, the class `[a-zA-Z0-9-]` of the permalink
pattern. -/
def isWsChar (c : Char) : Bool := isAlnumA c || c = '-'

/-- Strips the literal `lit` from the front of `cs`; `none` if `cs` does
not start with `lit`. -/
def dropLit : List Char → List Char → Option (List Char)
  | [], cs => some cs
  | _ :: _, [] => none
  | l :: ls, c :: cs => if c = l then dropLit ls cs else none

/-- Literal head of the permalink pattern. -/
def hlit : List Char := "https://".data

/-- Literal between the workspace name and the channel id. -/
def slit : List Char := ".slack.com/archives/".data

/-- Literal between the channel id and the 16 timestamp digits. -/
def plit : List Char := "/p".data

/-- Matches the permalink pattern of `extractSlackLinkInfo` (the regexp
at main.go line 233) at the head of `cs`, returning capture group 2 (the
channel id) and the dotted timestamp that main.go line 238 builds from
groups 3 and 4.  The pattern is `https://` then one or more of
`[a-zA-Z0-9-]` (group 1, unused by the source), then
`.slack.com/archives/`, then `[CG]` followed by one or more of
`[A-Za-z0-9]` (group 2), then `/p`, then 10 digits (group 3) and 6
digits (group 4).  Greedy matching of the two one-or-more runs is
deterministic: each class excludes the delimiter that must follow the
run (`.` respectively `/`), so both runs are forced to be maximal and a
match at a given start position is unique; Go's leftmost search is then
the left-to-right scan of start positions done by `findMatchFrom`.  The
pattern is pure ASCII, so byte positions and character positions agree
on every match. -/
def matchAt (cs : List Char) : Option (String × String) :=
  match dropLit hlit cs with
  | none => none
  | some cs1 =>
    let ws := cs1.takeWhile isWsChar
    let cs2 := cs1.dropWhile isWsChar
    if ws.isEmpty then none
    else
      match dropLit slit cs2 with
      | none => none
      | some cs3 =>
        match cs3 with
        | [] => none
        | c :: cs4 =>
          if c = 'C' || c = 'G' then
            let run := cs4.takeWhile isAlnumA
            let cs5 := cs4.dropWhile isAlnumA
            if run.isEmpty then none
            else
              match dropLit plit cs5 with
              | none => none
              | some cs6 =>
                let ds := cs6.take 16
                if ds.length = 16 && ds.all isDigitA then
                  some (⟨c :: run⟩, ⟨ds.take 10⟩ ++ "." ++ ⟨ds.drop 10⟩)
                else none
          else none

/-- Scans start positions left to right for the first one where `matchAt`
succeeds: the embedding of `re.FindStringSubmatch` (main.go line 234) for
this pattern. -/
def findMatchFrom : List Char → Option (String × String)
  | [] => none
  | c :: cs =>
    match matchAt (c :: cs) with
    | some r => some r
    | none => findMatchFrom cs

/-- Embeds `extractSlackLinkInfo` (main.go lines 232-242): on a match the
channel id and the dotted timestamp, otherwise a pair of empty strings.
(A successful `FindStringSubmatch` of this four-group pattern always has
length 5, so the `len(match) == 5` test of line 236 is equivalent to the
match having succeeded.) -/
def extractSlackLinkInfo (link : String) : String × String :=
  match findMatchFrom link.data with
  | some (channelID, timestamp) => (channelID, timestamp)
  | none => ("", "")

/-- Follows the spec's words: the property of a string being, as a whole,
of the shape
`https://<workspace>.slack.com/archives/<channelId>/p<16-digit-timestamp>`
with `<workspace>` one or more characters of the URL host class
`[a-zA-Z0-9-]` and `<channelId>` starting with `C` or `G` and continuing
with one or more alphanumerics.  This is the spec-side definition used to
compare the spec's anchored reading with the source's unanchored regexp
search. -/
def SpecShape (s : String) : Prop :=
  ∃ (ws : List Char) (c : Char) (rest ds : List Char),
    s.data = hlit ++ ws ++ slit ++ (c :: rest) ++ plit ++ ds
    ∧ ws ≠ [] ∧ (∀ x ∈ ws, isWsChar x = true)
    ∧ (c = 'C' ∨ c = 'G') ∧ rest ≠ [] ∧ (∀ x ∈ rest, isAlnumA x = true)
    ∧ ds.length = 16 ∧ (∀ x ∈ ds, isDigitA x = true)

/-- A string contains a substring of the permalink shape. -/
def ContainsShape (s : String) : Prop :=
  ∃ pre mid post : List Char,
    s.data = pre ++ mid ++ post ∧ SpecShape ⟨mid⟩

/-- Decidable whole-string test equivalent to `SpecShape` (the runs of
the shape are forced to be maximal, so the shape can be checked by the
same deterministic scan as `matchAt`, anchored at both ends). -/
def specShapeB (s : String) : Bool :=
  match dropLit hlit s.data with
  | none => false
  | some cs1 =>
    let ws := cs1.takeWhile isWsChar
    let cs2 := cs1.dropWhile isWsChar
    if ws.isEmpty then false
    else
      match dropLit slit cs2 with
      | none => false
      | some cs3 =>
        match cs3 with
        | [] => false
        | c :: cs4 =>
          if c = 'C' || c = 'G' then
            let run := cs4.takeWhile isAlnumA
            let cs5 := cs4.dropWhile isAlnumA
            if run.isEmpty then false
            else
              match dropLit plit cs5 with
              | none => false
              | some ds => ds.length = 16 && ds.all isDigitA
          else false

/-! ### Presenter / orchestrator (`handleFetchMessage`) -/

/-- Embeds the per-message loop of `handleFetchMessage` (main.go lines
133-152), threading the user-name cache through `getUserName` in loop
order and collecting one `ResponseData` per message: on a name-resolution
error the placeholder "Unknown" is used (line 138), and on a timestamp
format error the raw timestamp string is used (line 144).  `render`
stands for the infallible local-time rendering
`time.Unix(seconds, 0).Format("2006-01-02 15:04:05")` applied to the
parsed seconds value. -/
def resolveLoop (userApi : String → UserRoundTrip) (render : Int → String)
    (cache : String → Option String) :
    List SlackMessage → List ResponseData × (String → Option String)
  | [] => ([], cache)
  | m :: ms =>
    let r := getUserName userApi cache m.user
    let name := match r.1 with
      | .ok n => n
      | .error _ => "Unknown"
    let fts := match formatTimestamp m.ts with
      | .ok secs => render secs
      | .error _ => m.ts
    let rest := resolveLoop userApi render r.2.1 ms
    (⟨fts, name, m.text⟩ :: rest.1, rest.2)

/-- What the loop of lines 133-152 produces for one message against a
fixed cache. -/
def perMessage (userApi : String → UserRoundTrip) (render : Int → String)
    (cache : String → Option String) (m : SlackMessage) : ResponseData :=
  ⟨match formatTimestamp m.ts with
    | .ok secs => render secs
    | .error _ => m.ts,
   match (getUserName userApi cache m.user).1 with
    | .ok n => n
    | .error _ => "Unknown",
   m.text⟩

/-- Outcome of one request handled by `handleFetchMessage`: an HTTP 400
error, an HTTP 500 error, or the JSON response payload. -/
inductive HandlerResult where
  | badRequest (msg : String)
  | internalError (msg : String)
  | okResponse (messages : List ResponseData)
deriving DecidableEq, Repr

/-- Embeds `handleFetchMessage` (main.go lines 107-158) from the point
where the request body has been decoded into the URL string.  (The
method check and JSON body decoding of lines 94-105 belong to the HTTP
transport layer and are not modelled.)  `sortImpl` is a parameter
standing for `sort.Slice(messages, less-by-Ts)` (main.go lines 128-130),
whose algorithm is Go standard-library code outside this repository; the
orchestration facts proved here hold for every such function.  The two
Booleans of the result record whether the thread fetcher, respectively
the per-message user-name resolution stage, was reached — every network
call of the handler happens inside those two.  `none` means the
pagination loop ran out of fuel. -/
def handleFetchMessage (threadApi : Nat → RoundTrip)
    (userApi : String → UserRoundTrip) (cache : String → Option String)
    (render : Int → String) (sortImpl : List SlackMessage → List SlackMessage)
    (fuel : Nat) (slackURL : String) :
    Option (HandlerResult × Bool × Bool) :=
  if slackURL = "" then some (.badRequest "Slack URL is required", false, false)
  else
    let info := extractSlackLinkInfo slackURL
    if info.1 = "" ∨ info.2 = "" then
      some (.badRequest "Invalid Slack message URL format", false, false)
    else
      match getThreadMessages threadApi fuel with
      | none => none
      | some (.error e, _) =>
        some (.internalError ("Error getting messages: " ++ e), true, false)
      | some (.ok msgs, _) =>
        let sorted := sortImpl msgs
        some (.okResponse (resolveLoop userApi render cache sorted).1, true, true)

/-- Concrete user-info oracle for witnesses: "U1" resolves to "Alice",
every other id gets an `ok:false` response. -/
def sampleUserApi : String → UserRoundTrip := fun u =>
  if u = "U1" then .response 200 "200 OK" (.decoded ⟨true, "", "Alice"⟩)
  else .response 200 "200 OK" (.decoded ⟨false, "user_not_found", ""⟩)

/-- Concrete two-message thread for witnesses. -/
def sampleThread : List SlackMessage :=
  [sampleMsg "U1" "1700000000.000100" "hello",
   sampleMsg "U2" "1700000000.000200" "hi"]

/-! ### Theorems -/

theorem sentDuring_snoc (c : String) (rs : List SlackMessageResponse) :
    sentDuring c rs ++ [cursorAfter c rs]
      = c :: rs.map (fun r => r.responseMetadata.nextCursor) := by
  induction rs generalizing c with
  | nil => rfl
  | cons r rs ih =>
    simp only [sentDuring, cursorAfter, List.cons_append, List.map_cons]
    rw [ih]

theorem processPage_goodPage {r : SlackMessageResponse} (h : r.ok = true) :
    processPage (goodPage r) = .ok r := by
  simp [processPage, goodPage, h]

/-- Running the loop across a block of successful pages whose cursors are
all non-empty accumulates their messages in order and advances the call
index, the cursor, and the record of sent cursors accordingly. -/
theorem threadLoop_goodRun (init : List SlackMessageResponse)
    (api : Nat → RoundTrip) (fuel i₀ : Nat) (c₀ : String)
    (acc₀ : List SlackMessage) (sent₀ : List String)
    (hok : ∀ r ∈ init, r.ok = true)
    (hc : ∀ r ∈ init, r.responseMetadata.nextCursor ≠ "")
    (happ : ∀ j (h : j < init.length), api (i₀ + j) = goodPage (init.get ⟨j, h⟩)) :
    threadLoop api (fuel + init.length) i₀ c₀ acc₀ sent₀
      = threadLoop api fuel (i₀ + init.length) (cursorAfter c₀ init)
          (acc₀ ++ init.flatMap (fun r => r.messages)) (sent₀ ++ sentDuring c₀ init) := by
  induction init generalizing i₀ c₀ acc₀ sent₀ with
  | nil => simp [cursorAfter, sentDuring]
  | cons r rs ih =>
    have h0 : api i₀ = goodPage r := by
      have := happ 0 (by simp)
      simpa using this
    have hr : r.ok = true := hok r (by simp)
    have hcr : r.responseMetadata.nextCursor ≠ "" := hc r (by simp)
    have hlen : fuel + (r :: rs).length = (fuel + rs.length) + 1 := by
      simp [List.length_cons]; omega
    rw [hlen]
    simp only [threadLoop, h0, processPage_goodPage hr]
    rw [if_neg hcr]
    have ih' := ih (i₀ + 1) r.responseMetadata.nextCursor
      (acc₀ ++ r.messages) (sent₀ ++ [c₀])
      (fun x hx => hok x (by simp [hx]))
      (fun x hx => hc x (by simp [hx]))
      (fun j h => by
        have := happ (j + 1) (by simpa using Nat.succ_lt_succ h)
        simpa [Nat.add_assoc, Nat.add_comm 1 j] using this)
    rw [ih']
    simp [cursorAfter, sentDuring, List.flatMap_cons, List.append_assoc,
      Nat.add_assoc, Nat.add_comm 1 rs.length]

/-- C1: for every sequence of paginated API responses, `getThreadMessages`
returns exactly the concatenation of all pages' message lists in page
order, requesting the next page with the returned cursor while the
response's next-cursor field is non-empty (the recorded cursor values are
the empty initial cursor followed by the cursors returned by all pages but
the last), and stops calling the API as soon as `next_cursor` is the
empty string (exactly `init.length + 1` calls are made). -/
theorem getThreadMessages_concatenates_pages (init : List SlackMessageResponse)
    (last : SlackMessageResponse) (api : Nat → RoundTrip) (fuel : Nat)
    (hok : ∀ r ∈ init, r.ok = true)
    (hc : ∀ r ∈ init, r.responseMetadata.nextCursor ≠ "")
    (hlastok : last.ok = true)
    (hlastc : last.responseMetadata.nextCursor = "")
    (happ : ∀ j (h : j < (init ++ [last]).length),
      api j = goodPage ((init ++ [last]).get ⟨j, h⟩))
    (hfuel : init.length + 1 ≤ fuel) :
    getThreadMessages api fuel
      = some (.ok ((init ++ [last]).flatMap (fun r => r.messages)),
          "" :: init.map (fun r => r.responseMetadata.nextCursor)) := by
  obtain ⟨f, hf⟩ : ∃ f, fuel = (f + 1) + init.length := ⟨fuel - init.length - 1, by omega⟩
  subst hf
  unfold getThreadMessages
  rw [threadLoop_goodRun init api (f + 1) 0 "" [] [] hok hc (fun j h => by
    have h2 : j < (init ++ [last]).length := by
      simp only [List.length_append, List.length_cons, List.length_nil]; omega
    have := happ j h2
    simpa [List.getElem_append_left h] using this)]
  have hlastget : api (0 + init.length) = goodPage last := by
    have h2 : init.length < (init ++ [last]).length := by
      simp only [List.length_append, List.length_cons, List.length_nil]; omega
    have := happ init.length h2
    simpa [List.getElem_append_right (Nat.le_refl init.length)] using this
  simp only [threadLoop, hlastget, processPage_goodPage hlastok, hlastc,
    if_pos rfl, List.nil_append]
  rw [List.flatMap_append]
  rw [sentDuring_snoc]
  simp

/-- Witness for C1 at a concrete two-page thread. -/
theorem getThreadMessages_concatenates_pages_witness :
    getThreadMessages
      (fun i => if i = 0
        then goodPage (samplePage [sampleMsg "U1" "1700000000.000100" "hello",
          sampleMsg "U2" "1700000000.000200" "hi"] "abc")
        else goodPage (samplePage [sampleMsg "U1" "1700000000.000300" "bye"] ""))
      2
    = some (.ok [sampleMsg "U1" "1700000000.000100" "hello",
        sampleMsg "U2" "1700000000.000200" "hi",
        sampleMsg "U1" "1700000000.000300" "bye"], ["", "abc"]) := by
  have h := getThreadMessages_concatenates_pages
    [samplePage [sampleMsg "U1" "1700000000.000100" "hello",
      sampleMsg "U2" "1700000000.000200" "hi"] "abc"]
    (samplePage [sampleMsg "U1" "1700000000.000300" "bye"] "")
    (fun i => if i = 0
      then goodPage (samplePage [sampleMsg "U1" "1700000000.000100" "hello",
        sampleMsg "U2" "1700000000.000200" "hi"] "abc")
      else goodPage (samplePage [sampleMsg "U1" "1700000000.000300" "bye"] ""))
    2
    (by intro r hr; simp at hr; subst hr; rfl)
    (by intro r hr; simp at hr; subst hr; simp [samplePage])
    (by rfl)
    (by rfl)
    (by intro j h; simp at h; interval_cases j <;> rfl)
    (by simp)
  simpa [samplePage] using h

/-- C2: if the pages before index `init.length` all succeed with non-empty
cursors and the round trip at index `init.length` fails (transport
failure, non-200 status, decode failure, or an `ok:false` body),
`getThreadMessages` returns an error and no messages (the `Except.error`
return corresponds to Go's `return nil, err`, so the messages accumulated
from the earlier pages are discarded), and in the `ok:false` case the
API's reported error string is contained in the returned error. -/
theorem getThreadMessages_fails_whole_fetch (init : List SlackMessageResponse)
    (bad : RoundTrip) (e : String) (api : Nat → RoundTrip) (fuel : Nat)
    (hok : ∀ r ∈ init, r.ok = true)
    (hc : ∀ r ∈ init, r.responseMetadata.nextCursor ≠ "")
    (hbad : processPage bad = .error e)
    (happ : ∀ j (h : j < init.length), api j = goodPage (init.get ⟨j, h⟩))
    (happbad : api init.length = bad)
    (hfuel : init.length + 1 ≤ fuel) :
    getThreadMessages api fuel
      = some (.error e, "" :: init.map (fun r => r.responseMetadata.nextCursor))
    ∧ ∀ st r, bad = .response 200 st (.decoded r) → ∃ p, e = p ++ r.error := by
  constructor
  · obtain ⟨f, hf⟩ : ∃ f, fuel = (f + 1) + init.length := ⟨fuel - init.length - 1, by omega⟩
    subst hf
    unfold getThreadMessages
    rw [threadLoop_goodRun init api (f + 1) 0 "" [] [] hok hc (fun j h => by
      simpa using happ j h)]
    have hb : api (0 + init.length) = bad := by simpa using happbad
    simp only [threadLoop, hb, hbad, List.nil_append]
    rw [sentDuring_snoc]
  · intro st r hr
    subst hr
    simp only [processPage, if_neg (by decide : ¬ (200 ≠ 200))] at hbad
    by_cases hok' : r.ok
    · simp [hok'] at hbad
    · simp only [Bool.not_eq_true] at hok'
      simp [hok'] at hbad
      exact ⟨"slack api returned an error: ", hbad.symm⟩

/-- Witness for C2 at a concrete fetch whose second page reports
`ok:false` with error string "thread_not_found". -/
theorem getThreadMessages_fails_whole_fetch_witness :
    getThreadMessages
      (fun i => if i = 0
        then goodPage (samplePage [sampleMsg "U1" "1700000000.000100" "hello"] "abc")
        else .response 200 "200 OK" (.decoded ⟨false, [], false, ⟨""⟩, "thread_not_found"⟩))
      2
    = some (.error "slack api returned an error: thread_not_found", ["", "abc"])
    ∧ ∃ p, "slack api returned an error: thread_not_found" = p ++ "thread_not_found" := by
  have h := getThreadMessages_fails_whole_fetch
    [samplePage [sampleMsg "U1" "1700000000.000100" "hello"] "abc"]
    (.response 200 "200 OK" (.decoded ⟨false, [], false, ⟨""⟩, "thread_not_found"⟩))
    "slack api returned an error: thread_not_found"
    (fun i => if i = 0
      then goodPage (samplePage [sampleMsg "U1" "1700000000.000100" "hello"] "abc")
      else .response 200 "200 OK" (.decoded ⟨false, [], false, ⟨""⟩, "thread_not_found"⟩))
    2
    (by intro r hr; simp at hr; subst hr; rfl)
    (by intro r hr; simp at hr; subst hr; simp [samplePage])
    (by rfl)
    (by intro j h; simp at h; subst h; rfl)
    (by rfl)
    (by simp)
  exact ⟨by simpa [samplePage] using h.1,
    h.2 "200 OK" ⟨false, [], false, ⟨""⟩, "thread_not_found"⟩ rfl⟩

/-- The cache returned by `getUserName` is always the cache it was given:
the source checks `userCache` on entry but stores nothing into it on any
path (there is no write to `userCache` anywhere in main.go). -/
theorem getUserName_cache_unchanged (api : String → UserRoundTrip)
    (cache : String → Option String) (u : String) :
    (getUserName api cache u).2.1 = cache := by
  unfold getUserName
  cases hc : cache u with
  | some n => rfl
  | none =>
    cases ha : api u with
    | transportErr e => rfl
    | response statusCode status body =>
      by_cases hs : statusCode ≠ 200
      · simp [hs]
      · cases body with
        | fail e => simp [hs]
        | decoded r => by_cases hr : r.ok <;> simp [hs, hr]

/-- C3 (code-bug evidence): with an empty cache and a `users.info`
endpoint that successfully reports the real name "Alice" for "U123", the
first `getUserName` call resolves "Alice" over the network, yet the cache
coming out of that call still has no entry for "U123", and a second call
made with exactly that cache performs a network call again.  The claimed
behaviour fails because main.go line 210 returns the resolved name
without ever storing it in `userCache`. -/
theorem getUserName_never_populates_cache :
    ((getUserName (fun _ => .response 200 "200 OK" (.decoded ⟨true, "", "Alice"⟩))
        (fun _ => none) "U123").1 = .ok "Alice")
    ∧ ((getUserName (fun _ => .response 200 "200 OK" (.decoded ⟨true, "", "Alice"⟩))
        (fun _ => none) "U123").2.2 = true)
    ∧ (((getUserName (fun _ => .response 200 "200 OK" (.decoded ⟨true, "", "Alice"⟩))
        (fun _ => none) "U123").2.1) "U123" = none)
    ∧ ((getUserName (fun _ => .response 200 "200 OK" (.decoded ⟨true, "", "Alice"⟩))
        ((getUserName (fun _ => .response 200 "200 OK" (.decoded ⟨true, "", "Alice"⟩))
          (fun _ => none) "U123").2.1) "U123").2.2 = true) := by
  exact ⟨rfl, rfl, rfl, rfl⟩

theorem takeWhile_eq_self_of_all {α : Type} (p : α → Bool) :
    ∀ l : List α, (∀ c ∈ l, p c = true) → l.takeWhile p = l
  | [], _ => rfl
  | x :: xs, h => by
    simp only [List.takeWhile_cons, h x (List.mem_cons_self x xs), if_pos]
    rw [takeWhile_eq_self_of_all p xs (fun c hc => h c (List.mem_cons_of_mem x hc))]

theorem splitAtFirstDot_none_takeWhile :
    ∀ {l : List Char}, splitAtFirstDot l = none →
      l.takeWhile (fun c => c != '.') = l
  | [], _ => rfl
  | c :: cs, h => by
    unfold splitAtFirstDot at h
    by_cases hc : c = '.'
    · rw [if_pos hc] at h; cases h
    · rw [if_neg hc] at h
      cases hs : splitAtFirstDot cs with
      | none =>
        have hb : (c != '.') = true := by simpa [bne_iff_ne] using hc
        simp only [List.takeWhile_cons, hb, if_true]
        rw [splitAtFirstDot_none_takeWhile hs]
      | some p => rw [hs] at h; cases h

theorem splitAtFirstDot_some_takeWhile :
    ∀ {cs l r : List Char}, splitAtFirstDot cs = some (l, r) →
      cs.takeWhile (fun c => c != '.') = l
  | [], _, _, h => by cases h
  | c :: cs, l, r, h => by
    unfold splitAtFirstDot at h
    by_cases hc : c = '.'
    · rw [if_pos hc] at h
      simp only [Option.some.injEq, Prod.mk.injEq] at h
      obtain ⟨h1, _⟩ := h
      subst h1 hc
      simp [List.takeWhile_cons]
    · rw [if_neg hc] at h
      cases hs : splitAtFirstDot cs with
      | none => rw [hs] at h; cases h
      | some p =>
        obtain ⟨p1, p2⟩ := p
        rw [hs] at h
        simp only [Option.some.injEq, Prod.mk.injEq] at h
        obtain ⟨h1, _⟩ := h
        subst h1
        have hb : (c != '.') = true := by simpa [bne_iff_ne] using hc
        simp only [List.takeWhile_cons, hb, if_true]
        rw [splitAtFirstDot_some_takeWhile hs]

/-- C6 (counterexample): the dotless input "1700000000" falsifies the
claimed biconditional at a concrete input: the string has no dot, so the
claim demands a format error, yet `formatTimestamp` succeeds on it (when
there is no dot the seconds component is the whole string, and here it is
a valid integer). -/
theorem formatTimestamp_dotless_claim_false :
    ¬ ((isErr (formatTimestamp "1700000000") = true)
        ↔ ("1700000000".data.all (fun c => c != '.') = true
            ∨ goParseInt64 "1700000000" = none)) := by
  decide

/-- C6 (amended): `formatTimestamp` returns an error if and only if the
part of the input before the first dot — the whole input when there is no
dot — does not parse as a base-10 signed 64-bit integer; in particular
the dotless non-numeric input "abc" yields a format error.  (The original
claim's "has no dot" disjunct is refuted by the counterexample: a dotless
input whose whole text is a valid integer succeeds.) -/
theorem formatTimestamp_error_iff :
    (∀ ts : String,
      isErr (formatTimestamp ts) = true
        ↔ goParseInt64 ⟨ts.data.takeWhile (fun c => c != '.')⟩ = none)
    ∧ isErr (formatTimestamp "abc") = true := by
  constructor
  · intro ts
    unfold formatTimestamp splitDot2
    cases hs : splitAtFirstDot ts.data with
    | none =>
      rw [splitAtFirstDot_none_takeWhile hs]
      have hmk : (⟨ts.data⟩ : String) = ts := rfl
      rw [hmk]
      cases hp : goParseInt64 ts <;> simp [isErr, hp]
    | some p =>
      obtain ⟨l, r⟩ := p
      rw [splitAtFirstDot_some_takeWhile hs]
      cases hp : goParseInt64 ⟨l⟩ <;> simp [isErr, hp]
  · decide

/-- Witness for the amended C6 at a concrete dotted input with a
non-numeric seconds component. -/
theorem formatTimestamp_error_iff_witness :
    isErr (formatTimestamp "abc.def") = true := by
  exact (formatTimestamp_error_iff.1 "abc.def").mpr (by decide)

/-- The per-message loop is a pointwise map: because `getUserName` never
changes the cache, each message's result depends only on that message,
the oracle, and the initial cache. -/
theorem resolveLoop_eq_map (userApi : String → UserRoundTrip)
    (render : Int → String) (cache : String → Option String) :
    ∀ msgs : List SlackMessage,
      resolveLoop userApi render cache msgs
        = (msgs.map (perMessage userApi render cache), cache)
  | [] => rfl
  | m :: ms => by
    simp only [resolveLoop, List.map_cons]
    rw [getUserName_cache_unchanged userApi cache m.user,
      resolveLoop_eq_map userApi render cache ms]
    rfl

theorem getD_map {α β : Type} (f : α → β) :
    ∀ (l : List α) (j : Nat), j < l.length → ∀ (d : β) (d' : α),
      (l.map f).getD j d = f (l.getD j d')
  | [], j, h, _, _ => by cases h
  | _ :: _, 0, _, _, _ => rfl
  | _ :: xs, j + 1, h, d, d' => by
    simp only [List.map_cons, List.getD_cons_succ]
    exact getD_map f xs j (Nat.lt_of_succ_lt_succ h) d d'

/-- C7: if user-name resolution fails for the message at position `i`
(any failure of `getUserName`: transport, non-200, decode, or
`ok:false`), the per-message loop of the orchestrator still produces one
output per message, substitutes the placeholder "Unknown" as the user
name of that message only (its text is kept), and every message's output
— in particular every other message's — is exactly the one computed from
that message alone against the initial cache, so one message's failure
never aborts the loop or affects any other message's result. -/
theorem resolveLoop_isolates_failures (userApi : String → UserRoundTrip)
    (render : Int → String) (cache : String → Option String)
    (msgs : List SlackMessage) (i : Nat) (hi : i < msgs.length)
    (hfail : ∃ e, (getUserName userApi cache
      ((msgs.getD i (sampleMsg "" "" "")).user)).1 = .error e) :
    ((resolveLoop userApi render cache msgs).1.length = msgs.length)
    ∧ (((resolveLoop userApi render cache msgs).1.getD i ⟨"", "", ""⟩).userName
        = "Unknown")
    ∧ (((resolveLoop userApi render cache msgs).1.getD i ⟨"", "", ""⟩).text
        = (msgs.getD i (sampleMsg "" "" "")).text)
    ∧ ∀ j, j < msgs.length →
        (resolveLoop userApi render cache msgs).1.getD j ⟨"", "", ""⟩
          = perMessage userApi render cache (msgs.getD j (sampleMsg "" "" "")) := by
  obtain ⟨e, he⟩ := hfail
  rw [resolveLoop_eq_map userApi render cache msgs]
  have hj : ∀ j, j < msgs.length →
      (msgs.map (perMessage userApi render cache)).getD j ⟨"", "", ""⟩
        = perMessage userApi render cache (msgs.getD j (sampleMsg "" "" "")) :=
    fun j h => getD_map (perMessage userApi render cache) msgs j h _ _
  refine ⟨by simp, ?_, ?_, hj⟩
  · rw [hj i hi]
    unfold perMessage
    rw [he]
  · rw [hj i hi]
    unfold perMessage
    rfl

/-- Witness for C7: in a concrete two-message thread where resolution of
the second message's user "U2" fails with `ok:false`, the loop still
returns both messages and only the second gets the name "Unknown". -/
theorem resolveLoop_isolates_failures_witness :
    ((resolveLoop sampleUserApi (fun _ => "2023-11-15 02:13:20")
        (fun _ => none) sampleThread).1.length = sampleThread.length)
    ∧ (((resolveLoop sampleUserApi (fun _ => "2023-11-15 02:13:20")
        (fun _ => none) sampleThread).1.getD 1 ⟨"", "", ""⟩).userName
        = "Unknown")
    ∧ (((resolveLoop sampleUserApi (fun _ => "2023-11-15 02:13:20")
        (fun _ => none) sampleThread).1.getD 1 ⟨"", "", ""⟩).text
        = (sampleThread.getD 1 (sampleMsg "" "" "")).text)
    ∧ ∀ j, j < sampleThread.length →
        (resolveLoop sampleUserApi (fun _ => "2023-11-15 02:13:20")
          (fun _ => none) sampleThread).1.getD j ⟨"", "", ""⟩
          = perMessage sampleUserApi (fun _ => "2023-11-15 02:13:20")
              (fun _ => none) (sampleThread.getD j (sampleMsg "" "" "")) := by
  exact resolveLoop_isolates_failures sampleUserApi
    (fun _ => "2023-11-15 02:13:20") (fun _ => none) sampleThread 1
    (by decide)
    ⟨"slack api returned an error: user_not_found", by rfl⟩

theorem dropLit_eq_some :
    ∀ {l cs r : List Char}, dropLit l cs = some r → cs = l ++ r
  | [], _, _, h => Option.some.inj h
  | _ :: _, [], _, h => by cases h
  | l :: ls, c :: cs, r, h => by
    unfold dropLit at h
    by_cases hc : c = l
    · rw [if_pos hc] at h
      subst hc
      rw [List.cons_append]
      exact congrArg (List.cons c) (dropLit_eq_some h)
    · rw [if_neg hc] at h; cases h

theorem dropLit_self_append : ∀ (l r : List Char), dropLit l (l ++ r) = some r
  | [], _ => rfl
  | c :: ls, r => by
    show (if c = c then dropLit ls (ls ++ r) else none) = some r
    rw [if_pos rfl]
    exact dropLit_self_append ls r

theorem takeWhile_middle {p : Char → Bool} {xs ys : List Char} {y : Char}
    (hxs : ∀ x ∈ xs, p x = true) (hy : p y = false) :
    (xs ++ y :: ys).takeWhile p = xs := by
  rw [List.takeWhile_append_of_pos hxs, List.takeWhile_cons, hy]
  simp

theorem dropWhile_middle {p : Char → Bool} {xs ys : List Char} {y : Char}
    (hxs : ∀ x ∈ xs, p x = true) (hy : p y = false) :
    (xs ++ y :: ys).dropWhile p = y :: ys := by
  rw [List.dropWhile_append_of_pos hxs, List.dropWhile_cons, hy]
  simp

/-- `matchAt` succeeds on any character list that starts with the
permalink shape, whatever follows, and returns exactly the channel id
and the 10+6 split of the 16 digits. -/
theorem matchAt_complete (ws : List Char) (c : Char) (rest ds tail : List Char)
    (hws : ws ≠ []) (hwsall : ∀ x ∈ ws, isWsChar x = true)
    (hcg : (c = 'C' || c = 'G') = true)
    (hrest : rest ≠ []) (hrestall : ∀ x ∈ rest, isAlnumA x = true)
    (hds : ds.length = 16) (hdsall : ∀ x ∈ ds, isDigitA x = true) :
    matchAt (hlit ++ ws ++ slit ++ (c :: rest) ++ plit ++ (ds ++ tail))
      = some (⟨c :: rest⟩, ⟨ds.take 10⟩ ++ "." ++ ⟨ds.drop 10⟩) := by
  have h1 : dropLit hlit
      (hlit ++ (ws ++ (slit ++ ((c :: rest) ++ (plit ++ (ds ++ tail))))))
      = some (ws ++ (slit ++ ((c :: rest) ++ (plit ++ (ds ++ tail))))) :=
    dropLit_self_append _ _
  have hslit : slit ++ ((c :: rest) ++ (plit ++ (ds ++ tail)))
      = '.' :: ("slack.com/archives/".data ++ ((c :: rest) ++ (plit ++ (ds ++ tail)))) := rfl
  have htw : (ws ++ (slit ++ ((c :: rest) ++ (plit ++ (ds ++ tail))))).takeWhile isWsChar
      = ws := by
    rw [hslit]
    exact takeWhile_middle hwsall (by decide)
  have hdw : (ws ++ (slit ++ ((c :: rest) ++ (plit ++ (ds ++ tail))))).dropWhile isWsChar
      = slit ++ ((c :: rest) ++ (plit ++ (ds ++ tail))) := by
    rw [hslit]
    exact dropWhile_middle hwsall (by decide)
  have hwse : ws.isEmpty = false := by
    cases ws with
    | nil => exact absurd rfl hws
    | cons a l => rfl
  have h2 : dropLit slit (slit ++ ((c :: rest) ++ (plit ++ (ds ++ tail))))
      = some ((c :: rest) ++ (plit ++ (ds ++ tail))) := dropLit_self_append _ _
  have hplit : plit ++ (ds ++ tail) = '/' :: ('p' :: (ds ++ tail)) := rfl
  have htw2 : (rest ++ (plit ++ (ds ++ tail))).takeWhile isAlnumA = rest := by
    rw [hplit]
    exact takeWhile_middle hrestall (by decide)
  have hdw2 : (rest ++ (plit ++ (ds ++ tail))).dropWhile isAlnumA
      = plit ++ (ds ++ tail) := by
    rw [hplit]
    exact dropWhile_middle hrestall (by decide)
  have hreste : rest.isEmpty = false := by
    cases rest with
    | nil => exact absurd rfl hrest
    | cons a l => rfl
  have h3 : dropLit plit (plit ++ (ds ++ tail)) = some (ds ++ tail) :=
    dropLit_self_append _ _
  have htake : (ds ++ tail).take 16 = ds := List.take_left' hds
  have hall : ds.all isDigitA = true := List.all_eq_true.mpr hdsall
  simp only [matchAt, List.append_assoc, List.cons_append, List.nil_append] at *
  simp only [h1, htw, hdw, hwse, h2, hcg, htw2, hdw2, hreste, h3, htake, hds,
    hall, Bool.false_eq_true, if_false, Bool.and_self, decide_True, if_true]

/-- Any successful `matchAt` exhibits a leading permalink-shaped block:
the input is a string of the spec shape followed by arbitrary leftover
characters. -/
theorem matchAt_sound {cs : List Char} {chan ts : String}
    (h : matchAt cs = some (chan, ts)) :
    ∃ mid post : List Char, cs = mid ++ post ∧ SpecShape ⟨mid⟩ := by
  unfold matchAt at h
  split at h
  · cases h
  · rename_i cs1 h1
    by_cases hwse : (cs1.takeWhile isWsChar).isEmpty = true
    · rw [if_pos hwse] at h; cases h
    · rw [if_neg hwse] at h
      split at h
      · cases h
      · rename_i cs3 h2
        split at h
        · cases h
        · rename_i c cs4
          by_cases hcg : (c = 'C' || c = 'G') = true
          · rw [if_pos hcg] at h
            by_cases hrune : (cs4.takeWhile isAlnumA).isEmpty = true
            · rw [if_pos hrune] at h; cases h
            · rw [if_neg hrune] at h
              split at h
              · cases h
              · rename_i cs6 h3
                by_cases hchk :
                    ((cs6.take 16).length = 16 && (cs6.take 16).all isDigitA) = true
                · rw [if_pos hchk] at h
                  have hchk2 : (cs6.take 16).length = 16
                      ∧ (cs6.take 16).all isDigitA = true := by
                    simpa [Bool.and_eq_true, decide_eq_true_eq] using hchk
                  refine ⟨hlit ++ cs1.takeWhile isWsChar ++ slit
                      ++ (c :: cs4.takeWhile isAlnumA) ++ plit ++ cs6.take 16,
                    cs6.drop 16, ?_, ?_⟩
                  · have hcs : cs = hlit ++ cs1 := dropLit_eq_some h1
                    have hcs1 : cs1 = cs1.takeWhile isWsChar ++ cs1.dropWhile isWsChar :=
                      (List.takeWhile_append_dropWhile isWsChar cs1).symm
                    have hdw : cs1.dropWhile isWsChar = slit ++ (c :: cs4) :=
                      dropLit_eq_some h2
                    have hcs4 : cs4 = cs4.takeWhile isAlnumA ++ cs4.dropWhile isAlnumA :=
                      (List.takeWhile_append_dropWhile isAlnumA cs4).symm
                    have hdw2 : cs4.dropWhile isAlnumA = plit ++ cs6 := dropLit_eq_some h3
                    have hcs6 : cs6 = cs6.take 16 ++ cs6.drop 16 :=
                      (List.take_append_drop 16 cs6).symm
                    rw [hcs]
                    conv_lhs => rw [hcs1, hdw, hcs4, hdw2]
                    conv_lhs => rw [hcs6]
                    simp [List.append_assoc]
                  · refine ⟨cs1.takeWhile isWsChar, c, cs4.takeWhile isAlnumA,
                      cs6.take 16, rfl, ?_, ?_, ?_, ?_, ?_, ?_, ?_⟩
                    · intro hn
                      exact hwse (by rw [hn]; rfl)
                    · exact List.all_eq_true.mp (List.all_takeWhile)
                    · simpa [Bool.or_eq_true, decide_eq_true_iff] using hcg
                    · intro hn
                      exact hrune (by rw [hn]; rfl)
                    · exact List.all_eq_true.mp (List.all_takeWhile)
                    · exact hchk2.1
                    · exact List.all_eq_true.mp hchk2.2
                · rw [if_neg hchk] at h; cases h
          · rw [if_neg hcg] at h; cases h

/-- A string of the spec shape passes the decidable whole-string
check. -/
theorem specShapeB_of_specShape {s : String} (h : SpecShape s) :
    specShapeB s = true := by
  obtain ⟨ws, c, rest, ds, hdata, hws, hwsall, hcg, hrest, hrestall, hds, hdsall⟩ := h
  have hcg' : (c = 'C' || c = 'G') = true := by
    cases hcg with
    | inl h => simp [h]
    | inr h => simp [h]
  have h1 : dropLit hlit (hlit ++ (ws ++ (slit ++ ((c :: rest) ++ (plit ++ ds)))))
      = some (ws ++ (slit ++ ((c :: rest) ++ (plit ++ ds)))) :=
    dropLit_self_append _ _
  have hslit : slit ++ ((c :: rest) ++ (plit ++ ds))
      = '.' :: ("slack.com/archives/".data ++ ((c :: rest) ++ (plit ++ ds))) := rfl
  have htw : (ws ++ (slit ++ ((c :: rest) ++ (plit ++ ds)))).takeWhile isWsChar
      = ws := by
    rw [hslit]
    exact takeWhile_middle hwsall (by decide)
  have hdw : (ws ++ (slit ++ ((c :: rest) ++ (plit ++ ds)))).dropWhile isWsChar
      = slit ++ ((c :: rest) ++ (plit ++ ds)) := by
    rw [hslit]
    exact dropWhile_middle hwsall (by decide)
  have hwse : ws.isEmpty = false := by
    cases ws with
    | nil => exact absurd rfl hws
    | cons a l => rfl
  have h2 : dropLit slit (slit ++ ((c :: rest) ++ (plit ++ ds)))
      = some ((c :: rest) ++ (plit ++ ds)) := dropLit_self_append _ _
  have hplit : plit ++ ds = '/' :: ('p' :: ds) := rfl
  have htw2 : (rest ++ (plit ++ ds)).takeWhile isAlnumA = rest := by
    rw [hplit]
    exact takeWhile_middle hrestall (by decide)
  have hdw2 : (rest ++ (plit ++ ds)).dropWhile isAlnumA = plit ++ ds := by
    rw [hplit]
    exact dropWhile_middle hrestall (by decide)
  have hreste : rest.isEmpty = false := by
    cases rest with
    | nil => exact absurd rfl hrest
    | cons a l => rfl
  have h3 : dropLit plit (plit ++ ds) = some ds := dropLit_self_append _ _
  have hall : ds.all isDigitA = true := List.all_eq_true.mpr hdsall
  simp only [List.append_assoc, List.cons_append] at hdata
  simp only [specShapeB, hdata, List.append_assoc, List.cons_append] at *
  simp only [h1, htw, hdw, hwse, h2, hcg', htw2, hdw2, hreste, h3, hds, hall,
    Bool.false_eq_true, if_false, Bool.and_self, decide_True, if_true]

theorem findMatchFrom_head {x : Char} {xs : List Char} {r : String × String}
    (h : matchAt (x :: xs) = some r) : findMatchFrom (x :: xs) = some r := by
  unfold findMatchFrom
  rw [h]

theorem findMatchFrom_sound :
    ∀ {cs : List Char} {r : String × String}, findMatchFrom cs = some r →
      ∃ pre suf : List Char, cs = pre ++ suf ∧ matchAt suf = some r
  | [], _, h => by cases h
  | x :: xs, r, h => by
    unfold findMatchFrom at h
    cases hm : matchAt (x :: xs) with
    | some r2 =>
      rw [hm] at h
      refine ⟨[], x :: xs, rfl, ?_⟩
      rw [hm]
      exact h
    | none =>
      rw [hm] at h
      obtain ⟨pre, suf, hps, hma⟩ := findMatchFrom_sound h
      exact ⟨x :: pre, suf, by rw [List.cons_append, ← hps], hma⟩

/-- A string containing no permalink-shaped substring extracts to a pair
of empty strings. -/
theorem extract_empty_of_not_contains {s : String} (h : ¬ ContainsShape s) :
    extractSlackLinkInfo s = ("", "") := by
  unfold extractSlackLinkInfo
  cases hf : findMatchFrom s.data with
  | none => rfl
  | some r =>
    exfalso
    obtain ⟨chan, ts⟩ := r
    obtain ⟨pre, suf, hps, hma⟩ := findMatchFrom_sound hf
    obtain ⟨mid, post, hmp, hshape⟩ := matchAt_sound hma
    exact h ⟨pre, mid, post, by rw [hps, hmp, List.append_assoc], hshape⟩

/-- C4 (amended): a string that is, as a whole, exactly of the permalink
shape extracts to its channel id (non-empty, it starts with the `C` or
`G`) and to the timestamp obtained by splitting its 16 digits into 10
and 6 around a literal dot; and a string that does not even contain a
substring of the permalink shape extracts to a pair of empty strings.
(The original claim demanded empty results for every string that is not
itself of the shape; that is refuted by the counterexample, because the
source's regexp search is unanchored and accepts any string containing a
permalink.) -/
theorem extractSlackLinkInfo_amended :
    (∀ (ws : List Char) (c : Char) (rest ds : List Char),
      ws ≠ [] → (∀ x ∈ ws, isWsChar x = true) →
      (c = 'C' ∨ c = 'G') → rest ≠ [] → (∀ x ∈ rest, isAlnumA x = true) →
      ds.length = 16 → (∀ x ∈ ds, isDigitA x = true) →
      extractSlackLinkInfo ⟨hlit ++ ws ++ slit ++ (c :: rest) ++ plit ++ ds⟩
          = (⟨c :: rest⟩, ⟨ds.take 10⟩ ++ "." ++ ⟨ds.drop 10⟩)
        ∧ (⟨c :: rest⟩ : String) ≠ ""
        ∧ (ds.take 10).length = 10 ∧ (ds.drop 10).length = 6)
    ∧ (∀ s : String, ¬ ContainsShape s → extractSlackLinkInfo s = ("", "")) := by
  constructor
  · intro ws c rest ds hws hwsall hcg hrest hrestall hds hdsall
    have hcg' : (c = 'C' || c = 'G') = true := by
      cases hcg with
      | inl h => simp [h]
      | inr h => simp [h]
    have hm := matchAt_complete ws c rest ds [] hws hwsall hcg' hrest hrestall hds hdsall
    rw [List.append_nil] at hm
    have hcons : hlit ++ ws ++ slit ++ (c :: rest) ++ plit ++ ds
        = 'h' :: ("ttps://".data ++ (ws ++ (slit ++ ((c :: rest) ++ (plit ++ ds))))) := by
      simp [hlit, List.append_assoc]
    refine ⟨?_, ?_, ?_, ?_⟩
    · unfold extractSlackLinkInfo
      have hdata : (⟨hlit ++ ws ++ slit ++ (c :: rest) ++ plit ++ ds⟩ : String).data
          = hlit ++ ws ++ slit ++ (c :: rest) ++ plit ++ ds := rfl
      rw [hcons] at hm
      rw [hdata, hcons, findMatchFrom_head hm]
    · intro hemp
      have := congrArg String.data hemp
      simp at this
    · simp [List.length_take, hds]
    · simp [List.length_drop, hds]
  · exact fun s h => extract_empty_of_not_contains h

/-- Witness for the amended C4 at the concrete permalink
`https://ws.slack.com/archives/C12345678/p1700000000000100`. -/
theorem extractSlackLinkInfo_amended_witness :
    extractSlackLinkInfo
        ⟨hlit ++ "ws".data ++ slit ++ ('C' :: "12345678".data) ++ plit
          ++ "1700000000000100".data⟩
      = (⟨'C' :: "12345678".data⟩,
          ⟨"1700000000000100".data.take 10⟩ ++ "."
            ++ ⟨"1700000000000100".data.drop 10⟩) := by
  exact (extractSlackLinkInfo_amended.1 "ws".data 'C' "12345678".data
    "1700000000000100".data (by decide) (by decide) (Or.inl rfl) (by decide)
    (by decide) (by decide) (by decide)).1

/-- C4 (counterexample): the concrete input below is a valid permalink
followed by the two extra characters "!!", so as a whole it is not of
the claimed shape, yet `extractSlackLinkInfo` returns a non-empty
channel id and timestamp for it — the original claim's "every string not
matching the shape yields a pair of empty strings" is false at this
input. -/
theorem extractSlackLinkInfo_claim_false :
    ¬ SpecShape "https://ws.slack.com/archives/C12345678/p1700000000000100!!"
    ∧ extractSlackLinkInfo "https://ws.slack.com/archives/C12345678/p1700000000000100!!"
        = ("C12345678", "1700000000.000100") := by
  constructor
  · intro h
    exact absurd (specShapeB_of_specShape h) (by decide)
  · rfl

/-- C10: the permalink pattern is matched as an unanchored substring:
a string with text before and after a valid permalink, and a permalink
whose p-suffix has 17 digits (of which the first 16 are taken), both
extract a non-empty channel id and timestamp even though neither is of
the permalink shape as a whole. -/
theorem extractSlackLinkInfo_unanchored :
    (extractSlackLinkInfo
        "see https://ws.slack.com/archives/C12345678/p1700000000000100 ok"
      = ("C12345678", "1700000000.000100"))
    ∧ ¬ SpecShape "see https://ws.slack.com/archives/C12345678/p1700000000000100 ok"
    ∧ (extractSlackLinkInfo "https://ws.slack.com/archives/G87654321/p17000000000001234"
      = ("G87654321", "1700000000.000123"))
    ∧ ¬ SpecShape "https://ws.slack.com/archives/G87654321/p17000000000001234" := by
  refine ⟨rfl, fun h => absurd (specShapeB_of_specShape h) (by decide), rfl,
    fun h => absurd (specShapeB_of_specShape h) (by decide)⟩

/-- C8 (counterexample): the empty URL is an input on which the link
parser fails (it returns a pair of empty strings), and the orchestrator
makes no network call on it, but the error it reports is the missing-URL
message of main.go line 109, not the invalid-URL message of line 116 —
so the original claim's "reports an invalid-URL error" fails at this
input, while its no-network-call half still holds. -/
theorem handleFetchMessage_empty_url :
    extractSlackLinkInfo "" = ("", "")
    ∧ handleFetchMessage (fun _ => .transportErr "down") sampleUserApi
        (fun _ => none) (fun _ => "") id 1 ""
      = some (.badRequest "Slack URL is required", false, false)
    ∧ "Slack URL is required" ≠ "Invalid Slack message URL format" := by
  refine ⟨rfl, rfl, by decide⟩

/-- C8 (amended): for every non-empty input URL on which the link parser
fails (empty channel id or empty timestamp returned), the orchestrator
reports the invalid-URL error and stops: the thread fetcher and the
per-message user-name resolution stage are never reached, so no network
call is made.  This holds for every thread oracle, user oracle, cache,
renderer, sort function and fuel.  (The empty URL is rejected even
earlier, with a distinct missing-URL message and likewise no network
call — see the counterexample.) -/
theorem handleFetchMessage_parse_failure_stops (threadApi : Nat → RoundTrip)
    (userApi : String → UserRoundTrip) (cache : String → Option String)
    (render : Int → String) (sortImpl : List SlackMessage → List SlackMessage)
    (fuel : Nat) (url : String) (hne : url ≠ "")
    (hfail : (extractSlackLinkInfo url).1 = "" ∨ (extractSlackLinkInfo url).2 = "") :
    handleFetchMessage threadApi userApi cache render sortImpl fuel url
      = some (.badRequest "Invalid Slack message URL format", false, false) := by
  simp only [handleFetchMessage]
  rw [if_neg hne, if_pos hfail]

/-- Witness for the amended C8 at the concrete unparsable URL
"notaurl". -/
theorem handleFetchMessage_parse_failure_stops_witness :
    handleFetchMessage (fun _ => .transportErr "down") sampleUserApi
        (fun _ => none) (fun _ => "") id 1 "notaurl"
      = some (.badRequest "Invalid Slack message URL format", false, false) := by
  exact handleFetchMessage_parse_failure_stops (fun _ => .transportErr "down")
    sampleUserApi (fun _ => none) (fun _ => "") id 1 "notaurl"
    (by decide) (Or.inl rfl)
